import Mathlib

/-!
# Verification of the match-allocator fleet controller

Shallow embedding of `src/match-allocator.js` (a match allocator and VM fleet
controller). JavaScript numbers are modelled as exact rationals `ℚ`, the
`vmPool` object as an insertion-ordered association list, and every external
effect (cloud SDK calls, worker HTTP probes) as an explicit oracle argument.
Stateful functions become pure state transformers on `St`. The asynchronous
request path and reconciler tick are modelled sequentially: in the source every
launch and every reconciler iteration is `await`ed to completion, and the
in-place parallel probe updates of `Promise.all` are applied as a fold in
registry order.

Rational division does not reduce in the kernel, so the source's age test
`(now - launchedAt) / (60*1000) >= VM_AGE_TERMINATE_MINUTES` is embedded in the
multiplied-through form `VM_AGE_TERMINATE_MINUTES * (60*1000) <= now -
launchedAt`, which is equivalent over exact rationals; the lemma
`age_comparison_faithful` records this equivalence against the literal source
expression.
-/

namespace Alloc

-- `Rat.add`, `Rat.sub` and `Rat.mul` are `@[irreducible]` in core, which
-- blocks kernel evaluation of concrete states by `decide`; restore the
-- default reducibility for this development.
attribute [local semireducible] Rat.add Rat.sub Rat.mul

/-- Configuration constants, from the environment block at the top of
`match-allocator.js` (lines 14-21). Counts of VMs are naturals; worker-reported
quantities and time are JavaScript numbers, modelled as `ℚ`. -/
structure Config where
  FULL_MATCH_LIMIT : ℚ
  MAX_BACKUP_VMS : ℕ
  MIN_BACKUP_VMS : ℕ
  NEAR_CAPACITY_THRESHOLD : ℚ
  VM_UNREACHABLE_TERMINATE_THRESHOLD : ℕ
  VM_AGE_TERMINATE_MINUTES : ℚ
deriving Repr, DecidableEq

/-- The default configuration (the `|| default` values in the source). -/
def cfgD : Config :=
  { FULL_MATCH_LIMIT := 5
    MAX_BACKUP_VMS := 10
    MIN_BACKUP_VMS := 1
    NEAR_CAPACITY_THRESHOLD := 1
    VM_UNREACHABLE_TERMINATE_THRESHOLD := 2
    VM_AGE_TERMINATE_MINUTES := 5 }

/-- One `vmPool` record: `{ ip, matchCount, unreachableCount, launchedAt, lastSeen }`
(source line 43). -/
structure VM where
  ip : String
  matchCount : ℚ
  unreachableCount : ℕ
  launchedAt : ℚ
  lastSeen : ℚ
deriving Repr, DecidableEq

/-- `vmPool` as an insertion-ordered association list (JavaScript object with
string keys: `Object.keys`/`Object.entries` enumerate in insertion order). -/
abbrev Pool := List (String × VM)

/-- `vmPool[k]` read. -/
def lookupVM : Pool → String → Option VM
  | [], _ => none
  | e :: p, k => if e.1 = k then some e.2 else lookupVM p k

/-- `vmPool[k] = v`: overwrite in place if the key exists, else append
(JavaScript object property assignment keeps insertion order). -/
def setVM : Pool → String → VM → Pool
  | [], k, v => [(k, v)]
  | e :: p, k, v => if e.1 = k then (k, v) :: p else e :: setVM p k v

/-- `delete vmPool[k]`. -/
def delVM : Pool → String → Pool
  | [], _ => []
  | e :: p, k => if e.1 = k then delVM p k else e :: delVM p k

/-- `Object.keys(vmPool)`. -/
def keysOf (p : Pool) : List String := p.map Prod.fst

/-- A match record as stored in `matches[matchId]` (source line 409): the
fields returned by `launchUnityServerOnVM` plus `startedAt` and
`vmInstanceId`. -/
structure MatchRec where
  serverIP : String
  serverPort : ℚ
  matchId : String
  gameMode : String
  tickRate : ℚ
  containerId : String
  startedAt : ℚ
  vmInstanceId : String
deriving Repr, DecidableEq

/-- `matches[k]` read. -/
def lookupMatch : List (String × MatchRec) → String → Option MatchRec
  | [], _ => none
  | e :: m, k => if e.1 = k then some e.2 else lookupMatch m k

/-- `matches[k] = v`. -/
def setMatch : List (String × MatchRec) → String → MatchRec → List (String × MatchRec)
  | [], k, v => [(k, v)]
  | e :: m, k, v => if e.1 = k then (k, v) :: m else e :: setMatch m k v

/-- The module-level mutable state of the allocator: `vmPool`, `matches`,
`protectedVM` and the single-flight `launching` flag (source lines 42-51). -/
structure St where
  vmPool : Pool
  matchMap : List (String × MatchRec)
  protectedVM : Option String
  launching : Bool
deriving Repr, DecidableEq

/-- Outcome of one `GET /status` probe of a worker.  `ok am` is a 2xx response
whose `activeMatches` field is `some q` when it is a finite number `q` and
`none` when it is absent or not a finite number (`Number.isFinite` false);
`fail` is any transport error or timeout. -/
inductive ProbeResult where
  | ok (activeMatches : Option ℚ)
  | fail
deriving Repr, DecidableEq

/-- The match-count normalization of the probe success branch (source lines
206 and 210): `Number.isFinite(activeMatches) ? activeMatches : 0`, then
clamp a negative value to 0. -/
def normalizeMC (am : Option ℚ) : ℚ :=
  match am with
  | some q => if q < 0 then 0 else q
  | none => 0

/-- The success branch of `refreshVmStatus` (source lines 204-211): store the
normalized `activeMatches`, reset `unreachableCount`, stamp `lastSeen`. -/
def refreshOkVM (now : ℚ) (vm : VM) (am : Option ℚ) : VM :=
  { vm with matchCount := normalizeMC am, unreachableCount := 0, lastSeen := now }

/-- `refreshVmStatus(instanceId, vm)` (source lines 202-234).  Returns the
boolean result and the new state.  On failure the unreachable counter is
bumped; when it reaches `VM_UNREACHABLE_TERMINATE_THRESHOLD` and the VM is old
enough, the VM is terminated and removed unless it is the protected VM or the
pool is at / below `MIN_BACKUP_VMS`.  The age test is the multiplied-through
form of `(now - launchedAt)/(60*1000) >= VM_AGE_TERMINATE_MINUTES` (see
`age_comparison_faithful`).  A VM whose entry is gone from the pool yields no
pool change (the source would mutate an orphaned object). -/
def refreshVmStatus (cfg : Config) (now : ℚ) (iid : String) (pr : ProbeResult)
    (st : St) : Bool × St :=
  match lookupVM st.vmPool iid with
  | none => (false, st)
  | some vm =>
    match pr with
    | .ok am => (true, { st with vmPool := setVM st.vmPool iid (refreshOkVM now vm am) })
    | .fail =>
      let vm' : VM := { vm with unreachableCount := vm.unreachableCount + 1 }
      let st' : St := { st with vmPool := setVM st.vmPool iid vm' }
      if cfg.VM_UNREACHABLE_TERMINATE_THRESHOLD ≤ vm'.unreachableCount ∧
          cfg.VM_AGE_TERMINATE_MINUTES * (60 * 1000) ≤ now - vm.launchedAt then
        if some iid ≠ st.protectedVM ∧ cfg.MIN_BACKUP_VMS < st'.vmPool.length then
          (false, { st' with vmPool := delVM st'.vmPool iid })
        else (false, st')
      else (false, st')

/-- The probe fan-out at the top of `getAvailableVM` (source lines 242-243):
`Promise.all(entries.map(([id, vm]) => refreshVmStatus(id, vm)))` over the
entries captured at entry, applied in registry order. -/
def probeAll (cfg : Config) (now : ℚ) (probes : String → ProbeResult) (st : St) : St :=
  (keysOf st.vmPool).foldl (fun s k => (refreshVmStatus cfg now k (probes k) s).2) st

/-- The comparator of the candidate sort (source line 248):
`(a.matchCount - b.matchCount) || (a.lastSeen - b.lastSeen)`, as the relation
"compares less-or-equal", i.e. lexicographic on `(matchCount, lastSeen)`. -/
def candLE (a b : String × VM) : Prop :=
  a.2.matchCount < b.2.matchCount ∨
    (a.2.matchCount = b.2.matchCount ∧ a.2.lastSeen ≤ b.2.lastSeen)

instance : DecidableRel candLE := fun a b =>
  inferInstanceAs (Decidable (_ ∨ _))

instance : IsTotal (String × VM) candLE :=
  ⟨fun a b => by
    rcases lt_trichotomy a.2.matchCount b.2.matchCount with h | h | h
    · exact Or.inl (Or.inl h)
    · rcases le_total a.2.lastSeen b.2.lastSeen with h' | h'
      · exact Or.inl (Or.inr ⟨h, h'⟩)
      · exact Or.inr (Or.inr ⟨h.symm, h'⟩)
    · exact Or.inr (Or.inl h)⟩

instance : IsTrans (String × VM) candLE :=
  ⟨fun a b c hab hbc => by
    rcases hab with h1 | ⟨h1, h1'⟩ <;> rcases hbc with h2 | ⟨h2, h2'⟩
    · exact Or.inl (h1.trans h2)
    · exact Or.inl (h2 ▸ h1)
    · exact Or.inl (h1 ▸ h2)
    · exact Or.inr ⟨h1.trans h2, h1'.trans h2'⟩⟩

/-- Outcome of one `launchBackupVM` attempt against the cloud, as an oracle:
`runFail` is `RunInstances` throwing or returning no instance id; `launched iid
ipo` is a successful `RunInstances` returning `iid`, where `ipo` is `some ip`
when some poll iteration saw the instance RUNNING with public IP `ip`, and
`none` when the poll budget was exhausted. -/
inductive LaunchOutcome where
  | runFail
  | launched (iid : String) (ipo : Option String)
deriving Repr, DecidableEq

/-- `launchBackupVM()` (source lines 132-196).  Faithful to the source order:
the new VM is registered during polling; then `protectedVM` is set if null
(before the ip check — on the timeout path this happens even though the entry
is then deleted); then the timeout path terminates the instance, deletes the
registry entry and returns null.  The `launching` flag is set on entry and
cleared in `finally`, so its net value is unchanged; the guard reads it. -/
def launchBackupVM (cfg : Config) (now : ℚ) (out : LaunchOutcome) (st : St) :
    Option (String × String) × St :=
  if st.launching then (none, st)
  else if cfg.MAX_BACKUP_VMS ≤ st.vmPool.length then (none, st)
  else
    match out with
    | .runFail => (none, st)
    | .launched iid ipo =>
      let st1 : St :=
        match ipo with
        | some ip =>
          let fresh : VM :=
            { ip := ip, matchCount := 0, unreachableCount := 0,
              launchedAt := now, lastSeen := now }
          { st with vmPool := setVM st.vmPool iid fresh }
        | none => st
      let st2 : St :=
        if st1.protectedVM = none then { st1 with protectedVM := some iid } else st1
      match ipo with
      | none => (none, { st2 with vmPool := delVM st2.vmPool iid })
      | some ip => (some (iid, ip), st2)

/-- The candidate filter of `getAvailableVM` (source line 247): the entries
with `matchCount < FULL_MATCH_LIMIT` (`unreachableCount` is not consulted). -/
def candidatesOf (cfg : Config) (st : St) : Pool :=
  st.vmPool.filter (fun e => e.2.matchCount < cfg.FULL_MATCH_LIMIT)

/-- `getAvailableVM()` (source lines 240-257): probe all VMs, filter
`matchCount < FULL_MATCH_LIMIT`, stable-sort by the comparator `candLE` and
take the first; if no candidate, fall through to `launchBackupVM`.  A stable
sort's output under a total preorder comparator is unique, so Mathlib's
(stable) `insertionSort` coincides with the JavaScript engine's stable
`Array.prototype.sort`. -/
def getAvailableVM (cfg : Config) (now : ℚ) (probes : String → ProbeResult)
    (out : LaunchOutcome) (st : St) : Option (String × String) × St :=
  let st' := probeAll cfg now probes st
  match (List.insertionSort candLE (candidatesOf cfg st')).head? with
  | some e => (some (e.1, e.2.ip), st')
  | none => launchBackupVM cfg now out st'

/-- The own keys of `SCENE_MAP` (source lines 23-27), mapped to their scene
strings. -/
def SCENE_MAP (g : String) : Option String :=
  if g = "VersusMen_Online" then some "SelectionScreenMen_Online"
  else if g = "VersusWomen_Online" then some "SelectionScreenWomen_Online"
  else if g = "KunBoran_Online" then some "SelectionScreenMen_Online_KunBoran"
  else none

/-- The property names every plain object literal inherits from
`Object.prototype`.  A JavaScript property access `SCENE_MAP[p]` for these
names resolves through the prototype chain to a function (or, for
`__proto__`, to the prototype object), all of which are truthy. -/
def objectProtoProps : List String :=
  ["constructor", "hasOwnProperty", "isPrototypeOf", "propertyIsEnumerable",
   "toLocaleString", "toString", "valueOf", "__proto__",
   "__defineGetter__", "__defineSetter__", "__lookupGetter__",
   "__lookupSetter__"]

/-- Truthiness of the JavaScript property access `SCENE_MAP[g]` (source line
390): true for the map's three own keys (non-empty strings) and for the
names inherited from `Object.prototype`; false (undefined) for everything
else. -/
def sceneTruthy (g : String) : Bool :=
  (SCENE_MAP g).isSome || decide (g ∈ objectProtoProps)

/-- The request body `{matchId, gameMode, tickRate = 30, matchType}` (source
line 389).  A field is `none` when absent from the JSON body. -/
structure Req where
  matchId : Option String
  gameMode : Option String
  tickRate : Option ℚ
  matchType : Option String
deriving Repr, DecidableEq

/-- The validation guard `!matchId || !gameMode || !SCENE_MAP[gameMode]`
(source line 390): returns the validated pair, `none` on rejection.  A missing
field and the empty string are both falsy in JavaScript; the `SCENE_MAP`
lookup is the prototype-chain-aware `sceneTruthy`, so a `gameMode` naming an
inherited `Object.prototype` property passes this guard even though it is not
an own key of the scene mapping. -/
def validReq (req : Req) : Option (String × String) :=
  match req.matchId, req.gameMode with
  | some mid, some gm =>
    if mid ≠ "" ∧ gm ≠ "" ∧ sceneTruthy gm = true then some (mid, gm) else none
  | _, _ => none

/-- Outcome of the `POST /start-match` call made by `launchUnityServerOnVM`
(source lines 262-282): `ok port cid` is a response with `success` truthy,
`serverPort = port`, `containerId = cid`; `fail` is a transport error, a
non-2xx, or `success` falsy — all of which make `launchUnityServerOnVM`
throw. -/
inductive StartOutcome where
  | ok (serverPort : ℚ) (containerId : String)
  | fail
deriving Repr, DecidableEq

/-- HTTP responses of the match-request and match-details handlers. -/
inductive Resp where
  | ok (m : MatchRec)
  | e400
  | e503
  | e500
  | e404
deriving Repr, DecidableEq

/-- `handleMatchRequest(matchPrivacy)` (source lines 387-420).  `matchPrivacy`
only influences the worker payload's `matchType` default, which is not part of
the stored or returned match data, so it does not appear in the state.  On
success the match record is stored and the chosen VM's `matchCount` is bumped
optimistically when the VM is still in the pool. -/
def handleMatchRequest (cfg : Config) (now : ℚ) (probes : String → ProbeResult)
    (lout : LaunchOutcome) (sout : StartOutcome) (req : Req) (st : St) : Resp × St :=
  match validReq req with
  | none => (.e400, st)
  | some (mid, gm) =>
    match getAvailableVM cfg now probes lout st with
    | (none, st1) => (.e503, st1)
    | (some (iid, ip), st1) =>
      match sout with
      | .fail => (.e500, st1)
      | .ok port cid =>
        let md : MatchRec :=
          { serverIP := ip, serverPort := port, matchId := mid, gameMode := gm,
            tickRate := req.tickRate.getD 30, containerId := cid,
            startedAt := now, vmInstanceId := iid }
        let st2 : St := { st1 with matchMap := setMatch st1.matchMap mid md }
        let st3 : St :=
          match lookupVM st2.vmPool iid with
          | some vm =>
            { st2 with vmPool := setVM st2.vmPool iid { vm with matchCount := vm.matchCount + 1 } }
          | none => st2
        (.ok md, st3)

/-- `GET /api/match-details/:matchId` (source lines 425-431).  Reads only. -/
def getMatchDetails (st : St) (mid : String) : Resp :=
  if mid = "" then .e400
  else
    match lookupMatch st.matchMap mid with
    | none => .e404
    | some md => .ok md

/-- One instance record of the `DescribeInstances` response, reduced to the
fields the controller reads: `InstanceId`, `InstanceState`,
`PublicIpAddresses?.[0]`. -/
structure CloudInst where
  instanceId : String
  instanceState : String
  publicIp : Option String
deriving Repr, DecidableEq

/-- JavaScript truthiness of the optional first public IP: absent or the empty
string are falsy. -/
def truthyIp : Option String → Option String
  | some s => if s = "" then none else some s
  | none => none

/-- `cloudMap.get(instanceId)` where the map was built by successive
`cloudMap.set` calls: the last instance with the id wins. -/
def cloudGet (insts : List CloudInst) (iid : String) : Option CloudInst :=
  insts.reverse.find? (fun i => i.instanceId == iid)

/-- `launchedAt` of a pool key (keys enumerated from the pool always resolve). -/
def launchedAtOf (p : Pool) (k : String) : ℚ :=
  ((lookupVM p k).map VM.launchedAt).getD 0

/-- Comparator of `ids.sort((a, b) => vmPool[a].launchedAt - vmPool[b].launchedAt)`. -/
def oldestLE (p : Pool) (a b : String) : Prop :=
  launchedAtOf p a ≤ launchedAtOf p b

instance (p : Pool) : DecidableRel (oldestLE p) := fun a b =>
  inferInstanceAs (Decidable (_ ≤ _))

/-- `ids.sort(by launchedAt)[0]`: the oldest key of the pool. -/
def oldestKey (p : Pool) : Option String :=
  (List.insertionSort (oldestLE p) (keysOf p)).head?

/-- One iteration of the removal loop of `syncWithCloud` (source lines 77-90):
drop a tracked VM that is absent from the cloud view or not RUNNING (clearing
`protectedVM` if it pointed there), else refresh a changed IP. -/
def syncRemovalStep (insts : List CloudInst) (st : St) (iid : String) : St :=
  match cloudGet insts iid with
  | none =>
    let st' : St := { st with vmPool := delVM st.vmPool iid }
    if st'.protectedVM = some iid then { st' with protectedVM := none } else st'
  | some inst =>
    if inst.instanceState ≠ "RUNNING" then
      let st' : St := { st with vmPool := delVM st.vmPool iid }
      if st'.protectedVM = some iid then { st' with protectedVM := none } else st'
    else
      match truthyIp inst.publicIp, lookupVM st.vmPool iid with
      | some ip, some vm =>
        if vm.ip ≠ ip then { st with vmPool := setVM st.vmPool iid { vm with ip := ip } }
        else st
      | _, _ => st

/-- One iteration of the add loop of `syncWithCloud` (source lines 93-108):
track a RUNNING cloud instance with a public IP that is not yet in the pool. -/
def syncAddStep (now : ℚ) (st : St) (inst : CloudInst) : St :=
  if inst.instanceState ≠ "RUNNING" then st
  else
    match truthyIp inst.publicIp with
    | none => st
    | some ip =>
      match lookupVM st.vmPool inst.instanceId with
      | some _ => st
      | none =>
        let fresh : VM :=
          { ip := ip, matchCount := 0, unreachableCount := 0,
            launchedAt := now, lastSeen := now }
        { st with vmPool := setVM st.vmPool inst.instanceId fresh }

/-- The protected-VM fixup at the end of `syncWithCloud` (source lines
110-121): choose the oldest VM when null, clear a dangling pointer. -/
def syncProtectedFixup (st : St) : St :=
  match st.protectedVM with
  | none =>
    match oldestKey st.vmPool with
    | some k => { st with protectedVM := some k }
    | none => st
  | some p =>
    if lookupVM st.vmPool p = none then { st with protectedVM := none } else st

/-- `syncWithCloud()` (source lines 67-125), with the `DescribeInstances`
response as an oracle; `none` models the call throwing (caught: no state
change). -/
def syncWithCloud (now : ℚ) (cloud : Option (List CloudInst)) (st : St) : St :=
  match cloud with
  | none => st
  | some insts =>
    let st1 := (keysOf st.vmPool).foldl (syncRemovalStep insts) st
    let st2 := insts.foldl (syncAddStep now) st1
    syncProtectedFixup st2

/-- `recomputeProtectedVM()` (source lines 289-318).  When the pointer
dangles the source nulls it and recurses, which immediately takes the
null branch; that recursion is inlined here.  The rotation test
`idleForMinutes > 60` is embedded multiplied through as
`60 * (60*1000) < now - base` (see `age_comparison_faithful`), with
`base = current.lastSeen || current.launchedAt` (`0` is falsy). -/
def recomputeProtectedVM (now : ℚ) (st : St) : St :=
  match st.protectedVM with
  | none =>
    match oldestKey st.vmPool with
    | some k => { st with protectedVM := some k }
    | none => st
  | some p =>
    match lookupVM st.vmPool p with
    | none =>
      let st0 : St := { st with protectedVM := none }
      match oldestKey st0.vmPool with
      | some k => { st0 with protectedVM := some k }
      | none => st0
    | some cur =>
      let base : ℚ := if cur.lastSeen = 0 then cur.launchedAt else cur.lastSeen
      if (60 : ℚ) * (60 * 1000) < now - base then
        let cands := (keysOf st.vmPool).filter (fun k => k != p)
        match (List.insertionSort (oldestLE st.vmPool) cands).head? with
        | some k => { st with protectedVM := some k }
        | none => st
      else st

/-- The idle scale-down inside `updateVMs` (source lines 337-357), applied to
a VM whose probe just succeeded: terminate a strictly idle
(`matchCount === 0`), old-enough, non-protected VM while the pool is above
`MIN_BACKUP_VMS`.  The dead-code protected clear of source line 353 is kept. -/
def idleCheck (cfg : Config) (now : ℚ) (iid : String) (st : St) : St :=
  match lookupVM st.vmPool iid with
  | none => st
  | some vm =>
    if vm.matchCount = 0 ∧ cfg.MIN_BACKUP_VMS < st.vmPool.length ∧
        some iid ≠ st.protectedVM then
      if cfg.VM_AGE_TERMINATE_MINUTES * (60 * 1000) ≤ now - vm.launchedAt then
        let st' : St := { st with vmPool := delVM st.vmPool iid }
        if st'.protectedVM = some iid then { st' with protectedVM := none } else st'
      else st
    else st

/-- One iteration of the health-refresh loop of `updateVMs` (source lines
331-361): probe, and on success accumulate
`freeSlots = max(0, FULL_MATCH_LIMIT - matchCount)` and run the idle
scale-down. -/
def healthStep (cfg : Config) (now : ℚ) (probes : String → ProbeResult)
    (acc : St × ℚ) (iid : String) : St × ℚ :=
  let (st, total) := acc
  match refreshVmStatus cfg now iid (probes iid) st with
  | (true, st1) =>
    let mc : ℚ := ((lookupVM st1.vmPool iid).map VM.matchCount).getD 0
    let freeSlots : ℚ := max 0 (cfg.FULL_MATCH_LIMIT - mc)
    (idleCheck cfg now iid st1, total + freeSlots)
  | (false, st1) => (st1, total)

/-- Phase (b) of `updateVMs`: the health-refresh loop over the entries
captured at its start, threading `totalFreeSlots`. -/
def healthPhase (cfg : Config) (now : ℚ) (probes : String → ProbeResult)
    (st : St) : St × ℚ :=
  (keysOf st.vmPool).foldl (healthStep cfg now probes) (st, 0)

/-- The body of the minimum-pool top-up loop (source lines 368-370):
`for (let i = 0; i < diff; i++) await launchBackupVM()`, with the `i`-th
iteration's cloud interaction given by `outs i`. -/
def topUpGo (cfg : Config) (now : ℚ) (outs : ℕ → LaunchOutcome) :
    ℕ → ℕ → St → St
  | 0, _, st => st
  | d + 1, i, st => topUpGo cfg now outs d (i + 1) (launchBackupVM cfg now (outs i) st).2

/-- Phase (3) of `updateVMs` (source lines 363-371): if
`|pool| < MIN_BACKUP_VMS`, launch `diff = MIN_BACKUP_VMS - |pool|` times,
sequentially awaited. -/
def topUpPhase (cfg : Config) (now : ℚ) (outs : ℕ → LaunchOutcome) (st : St) : St :=
  if st.vmPool.length < cfg.MIN_BACKUP_VMS then
    topUpGo cfg now outs (cfg.MIN_BACKUP_VMS - st.vmPool.length) 0 st
  else st

/-- Phase (4) of `updateVMs` (source lines 373-377): scale up once when free
capacity is low and the pool is below `MAX_BACKUP_VMS`. -/
def scaleUpPhase (cfg : Config) (now : ℚ) (out : LaunchOutcome)
    (totalFreeSlots : ℚ) (st : St) : St :=
  if totalFreeSlots ≤ cfg.NEAR_CAPACITY_THRESHOLD ∧ st.vmPool.length < cfg.MAX_BACKUP_VMS then
    (launchBackupVM cfg now out st).2
  else st

/-- One reconciler tick `updateVMs()` (source lines 323-384): cloud sync,
health refresh with idle scale-down, minimum-pool top-up, low-capacity
scale-up, protected-VM recompute. -/
def updateVMs (cfg : Config) (now : ℚ) (cloud : Option (List CloudInst))
    (probes : String → ProbeResult) (topOuts : ℕ → LaunchOutcome)
    (scaleOut : LaunchOutcome) (st : St) : St :=
  let stA := syncWithCloud now cloud st
  let hb := healthPhase cfg now probes stA
  let stC := topUpPhase cfg now topOuts hb.1
  let stD := scaleUpPhase cfg now scaleOut hb.2 stC
  recomputeProtectedVM now stD

/-- The termination age guard evaluated at a pool entry: the VM named `iid`
is at least `VM_AGE_TERMINATE_MINUTES` old at time `now` (false when the key
is absent). -/
def ageOKb (cfg : Config) (now : ℚ) (st : St) (iid : String) : Bool :=
  match lookupVM st.vmPool iid with
  | some vm => decide (cfg.VM_AGE_TERMINATE_MINUTES * (60 * 1000) ≤ now - vm.launchedAt)
  | none => false

/-- A one-VM pool (VM "A", no matches, nothing protected), used for concrete
instantiations. -/
def stA : St :=
  { vmPool := [("A", ⟨"1.2.3.4", 0, 0, 0, 0⟩)], matchMap := [],
    protectedVM := none, launching := false }

/-- A two-VM pool: "A" (idle, one failed probe recorded, launched at 0) and
the protected "B"; used for concrete instantiations at `now = 300000`
(five minutes after launch). -/
def stAB : St :=
  { vmPool := [("A", ⟨"1.2.3.4", 0, 1, 0, 0⟩), ("B", ⟨"5.6.7.8", 3, 0, 0, 0⟩)],
    matchMap := [], protectedVM := some "B", launching := false }

/-- A one-VM pool whose VM "F" is at `FULL_MATCH_LIMIT`, used for concrete
instantiations. -/
def stF : St :=
  { vmPool := [("F", ⟨"9.9.9.9", 5, 0, 0, 0⟩)], matchMap := [],
    protectedVM := none, launching := false }

/-- A valid match request `{matchId: "m1", gameMode: "VersusMen_Online"}`. -/
def reqM : Req :=
  { matchId := some "m1", gameMode := some "VersusMen_Online",
    tickRate := none, matchType := none }

/-- The source's age condition `(now - launchedAt) / (60 * 1000) >=
VM_AGE_TERMINATE_MINUTES` is embedded multiplied through by the positive
constant; over exact rationals the two are equivalent. -/
theorem age_comparison_faithful (now la m : ℚ) :
    (m * (60 * 1000) ≤ now - la) ↔ (m ≤ (now - la) / (60 * 1000)) := by
  rw [le_div_iff₀]
  norm_num

/-! ## Association-list lemmas -/

theorem lookupVM_setVM_self (p : Pool) (k : String) (v : VM) :
    lookupVM (setVM p k v) k = some v := by
  induction p with
  | nil => simp [setVM, lookupVM]
  | cons e p ih =>
    by_cases h : e.1 = k
    · simp [setVM, lookupVM, h]
    · simp [setVM, lookupVM, h, ih]

theorem lookupVM_setVM_ne (p : Pool) (k k' : String) (v : VM) (h : k' ≠ k) :
    lookupVM (setVM p k v) k' = lookupVM p k' := by
  induction p with
  | nil => simp [setVM, lookupVM, Ne.symm h]
  | cons e p ih =>
    by_cases he : e.1 = k
    · simp [setVM, lookupVM, he, Ne.symm h]
    · by_cases he' : e.1 = k'
      · simp [setVM, lookupVM, he, he', h]
      · simp [setVM, lookupVM, he, he', ih]

theorem lookupVM_delVM_self (p : Pool) (k : String) :
    lookupVM (delVM p k) k = none := by
  induction p with
  | nil => simp [delVM, lookupVM]
  | cons e p ih =>
    by_cases h : e.1 = k
    · simp [delVM, h, ih]
    · simp [delVM, lookupVM, h, ih]

theorem lookupVM_delVM_ne (p : Pool) (k k' : String) (h : k' ≠ k) :
    lookupVM (delVM p k) k' = lookupVM p k' := by
  induction p with
  | nil => simp [delVM]
  | cons e p ih =>
    by_cases he : e.1 = k
    · simp [delVM, lookupVM, he, Ne.symm h, ih]
    · by_cases he' : e.1 = k'
      · simp [delVM, lookupVM, he, he', h, Ne.symm h]
      · simp [delVM, lookupVM, he, he', ih]

theorem mem_keysOf_iff_lookup (p : Pool) (k : String) :
    k ∈ keysOf p ↔ lookupVM p k ≠ none := by
  induction p with
  | nil => simp [keysOf, lookupVM]
  | cons e p ih =>
    by_cases h : e.1 = k
    · simp [keysOf, lookupVM, h]
    · simpa [keysOf, lookupVM, h, Ne.symm h] using ih

theorem length_setVM_of_mem (p : Pool) (k : String) (v : VM)
    (h : lookupVM p k ≠ none) : (setVM p k v).length = p.length := by
  induction p with
  | nil => simp [lookupVM] at h
  | cons e p ih =>
    by_cases he : e.1 = k
    · simp [setVM, he]
    · simp only [lookupVM, he, if_false] at h
      simp [setVM, he, ih h]

theorem length_setVM_of_fresh (p : Pool) (k : String) (v : VM)
    (h : lookupVM p k = none) : (setVM p k v).length = p.length + 1 := by
  induction p with
  | nil => simp [setVM]
  | cons e p ih =>
    by_cases he : e.1 = k
    · simp [lookupVM, he] at h
    · simp only [lookupVM, he, if_false] at h
      simp [setVM, he, ih h]

theorem length_setVM_le (p : Pool) (k : String) (v : VM) :
    (setVM p k v).length ≤ p.length + 1 := by
  by_cases h : lookupVM p k = none
  · exact (length_setVM_of_fresh p k v h).le
  · exact (length_setVM_of_mem p k v h).le.trans (Nat.le_succ _)

theorem length_delVM_le (p : Pool) (k : String) :
    (delVM p k).length ≤ p.length := by
  induction p with
  | nil => simp [delVM]
  | cons e p ih =>
    by_cases h : e.1 = k
    · simp only [delVM, h, if_true]
      exact ih.trans (Nat.le_succ _)
    · simpa [delVM, h] using ih

theorem keysOf_setVM_of_mem (p : Pool) (k : String) (v : VM)
    (h : lookupVM p k ≠ none) : keysOf (setVM p k v) = keysOf p := by
  induction p with
  | nil => simp [lookupVM] at h
  | cons e p ih =>
    by_cases he : e.1 = k
    · simp [setVM, keysOf, he]
    · simp only [lookupVM, he, if_false] at h
      have hk := ih h
      simp only [keysOf, List.map_cons] at hk ⊢
      simp [setVM, he, hk]

theorem keysOf_setVM_of_fresh (p : Pool) (k : String) (v : VM)
    (h : lookupVM p k = none) : keysOf (setVM p k v) = keysOf p ++ [k] := by
  induction p with
  | nil => simp [setVM, keysOf]
  | cons e p ih =>
    by_cases he : e.1 = k
    · simp [lookupVM, he] at h
    · simp only [lookupVM, he, if_false] at h
      have hk := ih h
      simp only [keysOf, List.map_cons] at hk ⊢
      simp [setVM, he, hk]

theorem mem_keysOf_delVM (p : Pool) (k k' : String) :
    k' ∈ keysOf (delVM p k) ↔ k' ∈ keysOf p ∧ k' ≠ k := by
  by_cases h : k' = k
  · subst h
    simp [mem_keysOf_iff_lookup, lookupVM_delVM_self]
  · simp [mem_keysOf_iff_lookup, lookupVM_delVM_ne p k k' h, h]

/-! ## Frame lemmas -/

theorem foldl_preserve {α β : Type _} {f : β → α → β} {P : β → Prop} :
    ∀ (l : List α) (b : β), (∀ b' a, a ∈ l → P b' → P (f b' a)) → P b →
      P (l.foldl f b) := by
  intro l
  induction l with
  | nil => exact fun b _ hb => hb
  | cons a l ih =>
    intro b hf hb
    exact ih _ (fun b' a' ha' => hf b' a' (List.mem_cons_of_mem a ha'))
      (hf b a (List.mem_cons_self a l) hb)

theorem launchBackupVM_launching (cfg : Config) (now : ℚ) (out : LaunchOutcome)
    (st : St) : (launchBackupVM cfg now out st).2.launching = st.launching := by
  unfold launchBackupVM
  dsimp only
  repeat' split
  all_goals rfl

theorem launchBackupVM_matchMap (cfg : Config) (now : ℚ) (out : LaunchOutcome)
    (st : St) : (launchBackupVM cfg now out st).2.matchMap = st.matchMap := by
  unfold launchBackupVM
  dsimp only
  repeat' split
  all_goals rfl

theorem refreshVmStatus_matchMap (cfg : Config) (now : ℚ) (iid : String)
    (pr : ProbeResult) (st : St) :
    (refreshVmStatus cfg now iid pr st).2.matchMap = st.matchMap := by
  unfold refreshVmStatus
  dsimp only
  repeat' split
  all_goals rfl

theorem refreshVmStatus_launching (cfg : Config) (now : ℚ) (iid : String)
    (pr : ProbeResult) (st : St) :
    (refreshVmStatus cfg now iid pr st).2.launching = st.launching := by
  unfold refreshVmStatus
  dsimp only
  repeat' split
  all_goals rfl

theorem refreshVmStatus_lookup_other (cfg : Config) (now : ℚ) (k : String)
    (pr : ProbeResult) (st : St) (iid : String) (h : iid ≠ k) :
    lookupVM (refreshVmStatus cfg now k pr st).2.vmPool iid =
      lookupVM st.vmPool iid := by
  unfold refreshVmStatus
  dsimp only
  repeat' split
  all_goals simp [lookupVM_setVM_ne _ _ _ _ h, lookupVM_delVM_ne _ _ _ h]

theorem refreshVmStatus_preserve_none (cfg : Config) (now : ℚ) (k : String)
    (pr : ProbeResult) (st : St) (iid : String)
    (h : lookupVM st.vmPool iid = none) :
    lookupVM (refreshVmStatus cfg now k pr st).2.vmPool iid = none := by
  by_cases hk : iid = k
  · subst hk
    simp only [refreshVmStatus, h]
  · rw [refreshVmStatus_lookup_other cfg now k pr st iid hk, h]

theorem probeAll_matchMap (cfg : Config) (now : ℚ) (probes : String → ProbeResult)
    (st : St) : (probeAll cfg now probes st).matchMap = st.matchMap := by
  unfold probeAll
  exact foldl_preserve (P := fun s => s.matchMap = st.matchMap) _ st
    (fun s k _ hs => (refreshVmStatus_matchMap cfg now k (probes k) s).trans hs) rfl

theorem probeAll_launching (cfg : Config) (now : ℚ) (probes : String → ProbeResult)
    (st : St) : (probeAll cfg now probes st).launching = st.launching := by
  unfold probeAll
  exact foldl_preserve (P := fun s => s.launching = st.launching) _ st
    (fun s k _ hs => (refreshVmStatus_launching cfg now k (probes k) s).trans hs) rfl

theorem getAvailableVM_matchMap (cfg : Config) (now : ℚ)
    (probes : String → ProbeResult) (out : LaunchOutcome) (st : St) :
    (getAvailableVM cfg now probes out st).2.matchMap = st.matchMap := by
  unfold getAvailableVM
  dsimp only
  split
  · exact probeAll_matchMap cfg now probes st
  · exact (launchBackupVM_matchMap _ _ _ _).trans (probeAll_matchMap cfg now probes st)

theorem recomputeProtectedVM_vmPool (now : ℚ) (st : St) :
    (recomputeProtectedVM now st).vmPool = st.vmPool := by
  unfold recomputeProtectedVM
  dsimp only
  repeat' split
  all_goals rfl

theorem recomputeProtectedVM_matchMap (now : ℚ) (st : St) :
    (recomputeProtectedVM now st).matchMap = st.matchMap := by
  unfold recomputeProtectedVM
  dsimp only
  repeat' split
  all_goals rfl

/-! ## Launch lemmas -/

theorem launchBackupVM_at_max (cfg : Config) (now : ℚ) (out : LaunchOutcome)
    (st : St) (h : cfg.MAX_BACKUP_VMS ≤ st.vmPool.length) :
    launchBackupVM cfg now out st = (none, st) := by
  unfold launchBackupVM
  by_cases hl : st.launching <;> simp [hl, h]

theorem launchBackupVM_pool_cases (cfg : Config) (now : ℚ) (out : LaunchOutcome)
    (st : St) :
    (launchBackupVM cfg now out st).2.vmPool = st.vmPool ∨
    (∃ iid, (launchBackupVM cfg now out st).2.vmPool = delVM st.vmPool iid) ∨
    (∃ iid ip, (launchBackupVM cfg now out st).2.vmPool =
      setVM st.vmPool iid ⟨ip, 0, 0, now, now⟩) := by
  unfold launchBackupVM
  by_cases hl : st.launching
  · simp [hl]
  · by_cases hm : cfg.MAX_BACKUP_VMS ≤ st.vmPool.length
    · simp [hl, hm]
    · simp only [hl, hm, if_false]
      cases out with
      | runFail => simp
      | launched iid ipo =>
        cases ipo with
        | none =>
          refine Or.inr (Or.inl ⟨iid, ?_⟩)
          by_cases hp : st.protectedVM = none <;> simp [hp]
        | some ip =>
          refine Or.inr (Or.inr ⟨iid, ip, ?_⟩)
          by_cases hp : st.protectedVM = none <;> simp [hp]

theorem launchBackupVM_length_le (cfg : Config) (now : ℚ) (out : LaunchOutcome)
    (st : St) (h : st.vmPool.length < cfg.MAX_BACKUP_VMS) :
    (launchBackupVM cfg now out st).2.vmPool.length ≤ cfg.MAX_BACKUP_VMS := by
  rcases launchBackupVM_pool_cases cfg now out st with hc | ⟨iid, hc⟩ | ⟨iid, ip, hc⟩
  · rw [hc]; omega
  · rw [hc]
    have := length_delVM_le st.vmPool iid
    omega
  · rw [hc]
    have := length_setVM_le st.vmPool iid ⟨ip, 0, 0, now, now⟩
    omega

/-! ## Claim C8 — the pool ceiling -/

/-- C8: `launchBackupVM` never grows the pool beyond `MAX_BACKUP_VMS`: at or
above the ceiling it returns null and leaves the state untouched; below the
ceiling the resulting pool stays within the ceiling; consequently a reconciler
tick whose low-capacity scale-up guard fired (phase 4, followed by the
protected-VM recompute which does not change the pool) ends with
`|vmPool| ≤ MAX_BACKUP_VMS`. -/
theorem C8_pool_ceiling (cfg : Config) (now : ℚ) (out scaleOut : LaunchOutcome)
    (totalFreeSlots : ℚ) (st stC : St) :
    (cfg.MAX_BACKUP_VMS ≤ st.vmPool.length →
      launchBackupVM cfg now out st = (none, st)) ∧
    (st.vmPool.length < cfg.MAX_BACKUP_VMS →
      (launchBackupVM cfg now out st).2.vmPool.length ≤ cfg.MAX_BACKUP_VMS) ∧
    (totalFreeSlots ≤ cfg.NEAR_CAPACITY_THRESHOLD →
      stC.vmPool.length < cfg.MAX_BACKUP_VMS →
      (recomputeProtectedVM now
        (scaleUpPhase cfg now scaleOut totalFreeSlots stC)).vmPool.length
        ≤ cfg.MAX_BACKUP_VMS) := by
  refine ⟨launchBackupVM_at_max cfg now out st, launchBackupVM_length_le cfg now out st, ?_⟩
  intro h1 h2
  rw [recomputeProtectedVM_vmPool]
  unfold scaleUpPhase
  rw [if_pos ⟨h1, h2⟩]
  exact launchBackupVM_length_le cfg now scaleOut stC h2

/-- Witness for C8: a tick on the one-VM pool whose scale-up guard fires
(zero free slots) ends within the ceiling. -/
theorem C8_pool_ceiling_witness :
    (recomputeProtectedVM 0
      (scaleUpPhase cfgD 0 (LaunchOutcome.launched "B" (some "ip")) 0 stA)).vmPool.length
      ≤ cfgD.MAX_BACKUP_VMS :=
  (C8_pool_ceiling cfgD 0 LaunchOutcome.runFail (LaunchOutcome.launched "B" (some "ip"))
    0 stA stA).2.2 (by decide) (by decide)

/-! ## Claim C1 — protected-VM referential validity through `launchBackupVM` -/

/-- C1 (code bug): the claim states that `launchBackupVM` sets `protectedVM`
to the new instance only when the launch succeeds, never on the timeout path,
so that a non-null `protectedVM` always names a key of `vmPool`.  The source
assigns `protectedVM` *before* checking whether an IP was obtained (lines
176-179 precede the timeout cleanup of lines 181-187), so on a poll timeout
with `protectedVM` null the function returns null, deletes the just-registered
entry, and leaves `protectedVM` pointing at an instance id that is not a key
of the (here empty) pool — the stated invariant is violated by the code. -/
theorem C1_launch_timeout_dangling_protected :
    (launchBackupVM cfgD 0 (LaunchOutcome.launched "i-x" none)
      { vmPool := [], matchMap := [], protectedVM := none, launching := false }).1 = none ∧
    (launchBackupVM cfgD 0 (LaunchOutcome.launched "i-x" none)
      { vmPool := [], matchMap := [], protectedVM := none, launching := false }).2.protectedVM
      = some "i-x" ∧
    (launchBackupVM cfgD 0 (LaunchOutcome.launched "i-x" none)
      { vmPool := [], matchMap := [], protectedVM := none, launching := false }).2.vmPool
      = [] := by
  decide

/-! ## Claim C2 — the allocator's candidate set -/

/-- C2 counterexample: the claim says the candidate set is exactly the VMs
with `matchCount < FULL_MATCH_LIMIT` *and* `unreachableCount == 0`, and that
`launchBackupVM` is invoked when it is empty.  With a single VM "A"
(`matchCount = 0`) whose probe fails, "A" ends the refresh with
`unreachableCount = 1`, so the claim's candidate set is empty and the launch
(which would yield the fresh VM "B") should be taken; the source filters only
on `matchCount` (line 247) and returns "A". -/
theorem C2_counterexample :
    (getAvailableVM cfgD 0 (fun _ => ProbeResult.fail)
      (LaunchOutcome.launched "B" (some "5.6.7.8"))
      { vmPool := [("A", ⟨"1.2.3.4", 0, 0, 0, 0⟩)], matchMap := [],
        protectedVM := none, launching := false }).1 = some ("A", "1.2.3.4") ∧
    ((lookupVM (getAvailableVM cfgD 0 (fun _ => ProbeResult.fail)
      (LaunchOutcome.launched "B" (some "5.6.7.8"))
      { vmPool := [("A", ⟨"1.2.3.4", 0, 0, 0, 0⟩)], matchMap := [],
        protectedVM := none, launching := false }).2.vmPool "A").map VM.unreachableCount)
      = some 1 := by
  decide

/-! ## Claim C3 — how many VMs one top-up phase launches -/

/-- C3 counterexample: the claim says a single reconciler tick's minimum-pool
top-up launches at most one VM.  The source loops `diff` times over an awaited
`launchBackupVM` (lines 368-370); each call completes (clearing the
single-flight flag) before the next begins, so with `MIN_BACKUP_VMS = 2` and
an empty pool one tick's top-up phase launches and registers two VMs. -/
theorem C3_counterexample :
    (topUpPhase { cfgD with MIN_BACKUP_VMS := 2 } 0
      (fun i => if i = 0 then LaunchOutcome.launched "i0" (some "ip0")
                else LaunchOutcome.launched "i1" (some "ip1"))
      { vmPool := [], matchMap := [], protectedVM := none, launching := false }).vmPool.length
      = 2 := by
  decide

/-! ## Claim C7 — normalization of the probed match count -/

/-- C7 counterexample: the claim says the stored `matchCount` is always a
non-negative *integer*.  `Number.isFinite(2.5)` is true, so a worker reporting
`activeMatches = 5/2` has that fractional value stored unchanged (source line
206 keeps any finite number; only negatives are clamped). -/
theorem C7_counterexample :
    ((lookupVM (refreshVmStatus cfgD 100 "A" (ProbeResult.ok (some (mkRat 5 2)))
      { vmPool := [("A", ⟨"1.2.3.4", 0, 0, 0, 0⟩)], matchMap := [],
        protectedVM := none, launching := false }).2.vmPool "A").map VM.matchCount)
      = some (mkRat 5 2) ∧ (mkRat 5 2).den ≠ 1 := by
  decide

/-! ## Claim C9 — which invalid requests are rejected -/

/-- C9 counterexample: the claim says every request whose `gameMode` is not a
key of the scene mapping is answered 400 with no mutation.  JavaScript
property access consults the prototype chain, so `SCENE_MAP["toString"]`
resolves to the truthy inherited `Object.prototype.toString` and line 390's
`!SCENE_MAP[gameMode]` test passes: the request `{matchId: "m2", gameMode:
"toString"}` — whose `gameMode` is *not* a key of the mapping — is not
rejected; it proceeds through allocation and a successful worker start,
incrementing VM "A"'s `matchCount` and storing a match record. -/
theorem C9_counterexample :
    SCENE_MAP "toString" = none ∧
    (handleMatchRequest cfgD 0 (fun _ => ProbeResult.ok (some 0))
      LaunchOutcome.runFail (StartOutcome.ok 7001 "c9")
      { matchId := some "m2", gameMode := some "toString", tickRate := none,
        matchType := none } stA).1 ≠ Resp.e400 ∧
    ((lookupVM (handleMatchRequest cfgD 0 (fun _ => ProbeResult.ok (some 0))
      LaunchOutcome.runFail (StartOutcome.ok 7001 "c9")
      { matchId := some "m2", gameMode := some "toString", tickRate := none,
        matchType := none } stA).2.vmPool "A").map VM.matchCount) = some 1 ∧
    (lookupMatch (handleMatchRequest cfgD 0 (fun _ => ProbeResult.ok (some 0))
      LaunchOutcome.runFail (StartOutcome.ok 7001 "c9")
      { matchId := some "m2", gameMode := some "toString", tickRate := none,
        matchType := none } stA).2.matchMap "m2").isSome = true := by
  decide

/-- C9 (amended): a request whose `matchId` is missing, whose `gameMode` is
missing, or whose `gameMode` fails the JavaScript truthiness test of
`SCENE_MAP[gameMode]` — i.e. is neither an own key of the scene mapping nor a
property name inherited from `Object.prototype` — is answered with 400 and
the entire state (VM pool, protected slot, match map) is returned unchanged.
A `gameMode` naming an inherited `Object.prototype` property (such as
"toString") is not a key of the mapping yet escapes this rejection (see the
counterexample). -/
theorem C9_amended_rejection (cfg : Config) (now : ℚ)
    (probes : String → ProbeResult) (lout : LaunchOutcome) (sout : StartOutcome)
    (req : Req) (st : St) :
    (req.matchId = none →
      handleMatchRequest cfg now probes lout sout req st = (.e400, st)) ∧
    (req.gameMode = none →
      handleMatchRequest cfg now probes lout sout req st = (.e400, st)) ∧
    (∀ g, req.gameMode = some g → sceneTruthy g = false →
      handleMatchRequest cfg now probes lout sout req st = (.e400, st)) := by
  refine ⟨fun h => ?_, fun h => ?_, fun g hg hs => ?_⟩
  · have hv : validReq req = none := by
      unfold validReq
      rw [h]
    simp [handleMatchRequest, hv]
  · have hv : validReq req = none := by
      unfold validReq
      rw [h]
      rcases req.matchId with _ | mid <;> rfl
    simp [handleMatchRequest, hv]
  · have hv : validReq req = none := by
      unfold validReq
      rw [hg]
      rcases req.matchId with _ | mid
      · rfl
      · simp [hs]
    simp [handleMatchRequest, hv]

/-- Witness for C9 (amended), the spec's scenario S6: `{matchId: "m2",
gameMode: "Bogus"}` — "Bogus" is neither a scene key nor an
`Object.prototype` name — is rejected with 400 and the state is untouched. -/
theorem C9_amended_rejection_witness :
    handleMatchRequest cfgD 0 (fun _ => ProbeResult.fail) LaunchOutcome.runFail
      StartOutcome.fail
      { matchId := some "m2", gameMode := some "Bogus", tickRate := none, matchType := none }
      { vmPool := [("A", ⟨"1.2.3.4", 0, 0, 0, 0⟩)], matchMap := [],
        protectedVM := some "A", launching := false }
      = (.e400,
        { vmPool := [("A", ⟨"1.2.3.4", 0, 0, 0, 0⟩)], matchMap := [],
          protectedVM := some "A", launching := false }) :=
  (C9_amended_rejection cfgD 0 (fun _ => ProbeResult.fail) LaunchOutcome.runFail
    StartOutcome.fail
    { matchId := some "m2", gameMode := some "Bogus", tickRate := none, matchType := none }
    { vmPool := [("A", ⟨"1.2.3.4", 0, 0, 0, 0⟩)], matchMap := [],
      protectedVM := some "A", launching := false }).2.2 "Bogus" rfl (by decide)

/-! ## Claim C4 — guards on reconciler termination -/

/-- C4: the reconciler never terminates a VM while it is the protected VM, or
while the pool size is at or below `MIN_BACKUP_VMS`, or while the VM is
younger than `VM_AGE_TERMINATE_MINUTES`.  Both termination paths are covered:
whenever a tracked VM disappears from the pool in a `refreshVmStatus` step
(the unreachable path) or in an `idleCheck` step (the idle scale-down path),
all three guards held at that step. -/
theorem C4_termination_guards (cfg : Config) (now : ℚ) (pr : ProbeResult)
    (st : St) (iid : String) :
    (iid ∈ keysOf st.vmPool →
      iid ∉ keysOf (refreshVmStatus cfg now iid pr st).2.vmPool →
      some iid ≠ st.protectedVM ∧ cfg.MIN_BACKUP_VMS < st.vmPool.length ∧
        ageOKb cfg now st iid = true) ∧
    (iid ∈ keysOf st.vmPool →
      iid ∉ keysOf (idleCheck cfg now iid st).vmPool →
      some iid ≠ st.protectedVM ∧ cfg.MIN_BACKUP_VMS < st.vmPool.length ∧
        ageOKb cfg now st iid = true) := by
  constructor
  · intro hmem hout
    rw [mem_keysOf_iff_lookup] at hmem
    rw [mem_keysOf_iff_lookup, not_not] at hout
    rcases hl : lookupVM st.vmPool iid with _ | vm
    · exact absurd hl hmem
    unfold refreshVmStatus at hout
    rw [hl] at hout
    cases pr with
    | ok am =>
      dsimp only at hout
      rw [lookupVM_setVM_self] at hout
      cases hout
    | fail =>
      dsimp only at hout
      split at hout
      case isTrue hcond =>
        split at hout
        case isTrue hguard =>
          refine ⟨hguard.1, ?_, ?_⟩
          · have hlen := length_setVM_of_mem st.vmPool iid
              { vm with unreachableCount := vm.unreachableCount + 1 }
              (by rw [hl]; exact Option.some_ne_none vm)
            have := hguard.2
            simp only [hlen] at this
            exact this
          · simp only [ageOKb, hl, decide_eq_true_eq]
            exact hcond.2
        case isFalse hguard =>
          dsimp only at hout
          rw [lookupVM_setVM_self] at hout
          cases hout
      case isFalse hcond =>
        dsimp only at hout
        rw [lookupVM_setVM_self] at hout
        cases hout
  · intro hmem hout
    rw [mem_keysOf_iff_lookup] at hmem
    rw [mem_keysOf_iff_lookup, not_not] at hout
    rcases hl : lookupVM st.vmPool iid with _ | vm
    · exact absurd hl hmem
    unfold idleCheck at hout
    rw [hl] at hout
    dsimp only at hout
    split at hout
    case isTrue hguard =>
      split at hout
      case isTrue hage =>
        refine ⟨hguard.2.2, hguard.2.1, ?_⟩
        simp only [ageOKb, hl, decide_eq_true_eq]
        exact hage
      case isFalse hage => exact absurd hout hmem
    case isFalse hguard => exact absurd hout hmem

/-- Witness for C4 on the two-VM pool `stAB` at `now = 300000`: the
unreachable-termination path does remove "A" there, and the three guards
held. -/
theorem C4_termination_guards_witness :
    some "A" ≠ stAB.protectedVM ∧ cfgD.MIN_BACKUP_VMS < stAB.vmPool.length ∧
      ageOKb cfgD 300000 stAB "A" = true :=
  (C4_termination_guards cfgD 300000 ProbeResult.fail stAB "A").1
    (by decide) (by decide)

/-! ## Claim C7 — probe update normalization (amended) -/

/-- C7 (amended): after a successful probe the stored `matchCount` equals
`normalizeMC activeMatches`, which is non-negative — a non-numeric response
normalizes to 0 and a negative value is clamped to 0 — so `0 ≤ matchCount` is
preserved by the probe update; but the stored value is the worker's number
unchanged whenever it is non-negative, hence not necessarily an integer (see
the counterexample with `activeMatches = 5/2`). -/
theorem C7_amended_normalization (cfg : Config) (now : ℚ) (iid : String)
    (st : St) (vm : VM) (am : Option ℚ)
    (h : lookupVM st.vmPool iid = some vm) :
    (refreshVmStatus cfg now iid (.ok am) st).1 = true ∧
    lookupVM (refreshVmStatus cfg now iid (.ok am) st).2.vmPool iid =
      some { vm with matchCount := normalizeMC am, unreachableCount := 0,
                     lastSeen := now } ∧
    0 ≤ normalizeMC am ∧
    (am = none → normalizeMC am = 0) ∧
    (∀ q, am = some q → q < 0 → normalizeMC am = 0) ∧
    (∀ q, am = some q → 0 ≤ q → normalizeMC am = q) := by
  refine ⟨?_, ?_, ?_, ?_, ?_, ?_⟩
  · simp [refreshVmStatus, h]
  · simp [refreshVmStatus, h, refreshOkVM, lookupVM_setVM_self]
  · unfold normalizeMC
    cases am with
    | none => norm_num
    | some q =>
      by_cases hq : q < 0
      · simp [hq]
      · simp only [if_neg hq]
        exact le_of_not_lt hq
  · intro h0
    subst h0
    rfl
  · intro q hq hlt
    subst hq
    show (if q < 0 then 0 else q) = 0
    rw [if_pos hlt]
  · intro q hq hge
    subst hq
    show (if q < 0 then 0 else q) = q
    rw [if_neg (not_lt.mpr hge)]

/-- Witness for C7 (amended): a worker reporting `activeMatches = -3` has 0
stored, with the probe bookkeeping applied. -/
theorem C7_amended_normalization_witness :
    lookupVM (refreshVmStatus cfgD 100 "A" (ProbeResult.ok (some (-3)))
      stA).2.vmPool "A" = some ⟨"1.2.3.4", 0, 0, 0, 100⟩ :=
  ((C7_amended_normalization cfgD 100 "A" stA ⟨"1.2.3.4", 0, 0, 0, 0⟩ (some (-3))
    (by decide)).2.1).trans (by decide)

/-! ## Sort lemmas and claim C2 (amended) -/

theorem candLE_refl (a : String × VM) : candLE a a :=
  Or.inr ⟨rfl, le_refl _⟩

theorem head_insertionSort_min (l : List (String × VM)) (e : String × VM)
    (he : (List.insertionSort candLE l).head? = some e) :
    e ∈ l ∧ ∀ x ∈ l, candLE e x := by
  have hperm := List.perm_insertionSort candLE l
  have hsort := List.sorted_insertionSort candLE l
  cases hs : List.insertionSort candLE l with
  | nil =>
    rw [hs] at he
    cases he
  | cons a t =>
    rw [hs] at he hperm hsort
    rw [List.head?_cons] at he
    injection he with he1
    rw [← he1]
    constructor
    · exact hperm.mem_iff.mp (List.mem_cons_self a t)
    · intro x hx
      rcases List.mem_cons.mp (hperm.mem_iff.mpr hx) with h | h
      · rw [h]
        exact candLE_refl a
      · exact List.rel_of_sorted_cons hsort x h

theorem lookup_ne_none_of_mem (p : Pool) (e : String × VM) (h : e ∈ p) :
    lookupVM p e.1 ≠ none := by
  induction p with
  | nil => cases h
  | cons a p ih =>
    rcases List.mem_cons.mp h with h | h
    · subst h
      simp [lookupVM]
    · by_cases ha : a.1 = e.1
      · simp [lookupVM, ha]
      · simpa [lookupVM, ha] using ih h

/-- C2 (amended): after the parallel status refresh, `getAvailableVM`'s
candidate set is exactly the VMs with `matchCount < FULL_MATCH_LIMIT` —
`unreachableCount` is *not* consulted — the returned VM is the head of the
stable sort by `(matchCount, lastSeen)` (hence minimal among the candidates in
that lexicographic order), the state is exactly the post-refresh state, and
only when the candidate set is empty is `launchBackupVM` invoked. -/
theorem C2_amended_selection (cfg : Config) (now : ℚ)
    (probes : String → ProbeResult) (out : LaunchOutcome) (st : St) :
    (∀ e, e ∈ candidatesOf cfg (probeAll cfg now probes st) ↔
      (e ∈ (probeAll cfg now probes st).vmPool ∧
        e.2.matchCount < cfg.FULL_MATCH_LIMIT)) ∧
    (candidatesOf cfg (probeAll cfg now probes st) = [] →
      getAvailableVM cfg now probes out st =
        launchBackupVM cfg now out (probeAll cfg now probes st)) ∧
    (∀ e,
      (List.insertionSort candLE (candidatesOf cfg (probeAll cfg now probes st))).head?
        = some e →
      getAvailableVM cfg now probes out st =
        (some (e.1, e.2.ip), probeAll cfg now probes st) ∧
      e ∈ candidatesOf cfg (probeAll cfg now probes st) ∧
      ∀ x ∈ candidatesOf cfg (probeAll cfg now probes st), candLE e x) ∧
    (candidatesOf cfg (probeAll cfg now probes st) ≠ [] →
      ∃ e,
        (List.insertionSort candLE (candidatesOf cfg (probeAll cfg now probes st))).head?
          = some e) := by
  refine ⟨?_, ?_, ?_, ?_⟩
  · intro e
    simp [candidatesOf, List.mem_filter]
  · intro h
    unfold getAvailableVM
    dsimp only
    rw [h]
    rfl
  · intro e he
    have hmin := head_insertionSort_min _ e he
    refine ⟨?_, hmin.1, hmin.2⟩
    unfold getAvailableVM
    dsimp only
    rw [he]
  · intro h
    cases hs : List.insertionSort candLE (candidatesOf cfg (probeAll cfg now probes st)) with
    | nil =>
      have hperm := List.perm_insertionSort candLE
        (candidatesOf cfg (probeAll cfg now probes st))
      rw [hs] at hperm
      exact absurd hperm.symm.eq_nil h
    | cons a t => exact ⟨a, rfl⟩

/-- Witness for C2 (amended): with the single VM "F" at `FULL_MATCH_LIMIT`
reporting five active matches, the candidate set is empty and
`getAvailableVM` falls through to `launchBackupVM` on the refreshed state. -/
theorem C2_amended_selection_witness :
    getAvailableVM cfgD 0 (fun _ => ProbeResult.ok (some 5))
      (LaunchOutcome.launched "B" (some "ipB")) stF =
      launchBackupVM cfgD 0 (LaunchOutcome.launched "B" (some "ipB"))
        (probeAll cfgD 0 (fun _ => ProbeResult.ok (some 5)) stF) :=
  (C2_amended_selection cfgD 0 (fun _ => ProbeResult.ok (some 5))
    (LaunchOutcome.launched "B" (some "ipB")) stF).2.1 (by decide)

/-! ## Claim C3 (amended) — the top-up phase closes the whole deficit -/

theorem launchBackupVM_success_pool (cfg : Config) (now : ℚ) (iid ip : String)
    (st : St) (hl : st.launching = false)
    (hm : ¬ cfg.MAX_BACKUP_VMS ≤ st.vmPool.length) :
    (launchBackupVM cfg now (.launched iid (some ip)) st).2.vmPool =
      setVM st.vmPool iid ⟨ip, 0, 0, now, now⟩ := by
  unfold launchBackupVM
  rw [hl]
  dsimp only
  rw [if_neg hm]
  by_cases hp : st.protectedVM = none <;> simp [hp]

/-- Each iteration of the top-up loop, given fresh ids and successful
launches, grows the pool by one; `d` iterations grow it by `d` while the pool
stays below the ceiling. -/
theorem topUpGo_spec (cfg : Config) (now : ℚ) (f g : ℕ → String)
    (outs : ℕ → LaunchOutcome)
    (houts : ∀ j, outs j = .launched (f j) (some (g j)))
    (hinj : ∀ j j', f j = f j' → j = j') :
    ∀ (d i : ℕ) (st : St), st.launching = false →
      st.vmPool.length + d ≤ cfg.MAX_BACKUP_VMS →
      (∀ j, i ≤ j → lookupVM st.vmPool (f j) = none) →
      (topUpGo cfg now outs d i st).vmPool.length = st.vmPool.length + d := by
  intro d
  induction d with
  | zero =>
    intro i st _ _ _
    rfl
  | succ d ih =>
    intro i st hl hmax hfresh
    have hm : ¬ cfg.MAX_BACKUP_VMS ≤ st.vmPool.length := by omega
    have hpool := launchBackupVM_success_pool cfg now (f i) (g i) st hl hm
    have hlaunch := launchBackupVM_launching cfg now (.launched (f i) (some (g i))) st
    have hlen : (launchBackupVM cfg now (.launched (f i) (some (g i))) st).2.vmPool.length
        = st.vmPool.length + 1 := by
      rw [hpool]
      exact length_setVM_of_fresh _ _ _ (hfresh i (le_refl i))
    show (topUpGo cfg now outs d (i + 1)
      (launchBackupVM cfg now (outs i) st).2).vmPool.length = st.vmPool.length + (d + 1)
    rw [houts i]
    rw [ih (i + 1) (launchBackupVM cfg now (.launched (f i) (some (g i))) st).2
      (by rw [hlaunch, hl]) (by omega) ?_, hlen]
    · omega
    · intro j hj
      rw [hpool]
      rw [lookupVM_setVM_ne _ _ _ _ (fun heq => by
        have := hinj j i heq
        omega)]
      exact hfresh j (by omega)

/-- C3 (amended): the claim said a single tick's top-up launches at most one
VM.  In fact the loop calls `launchBackupVM` once per unit of deficit,
sequentially awaited, and each call completes (clearing the single-flight
flag) before the next: when all `diff = MIN_BACKUP_VMS - |pool|` launches
succeed with fresh instance ids and `MIN_BACKUP_VMS ≤ MAX_BACKUP_VMS`, a
single tick's top-up phase brings the pool all the way to `MIN_BACKUP_VMS`. -/
theorem C3_amended_topup (cfg : Config) (now : ℚ) (f g : ℕ → String)
    (outs : ℕ → LaunchOutcome) (st : St)
    (houts : ∀ j, outs j = .launched (f j) (some (g j)))
    (hinj : ∀ j j', f j = f j' → j = j')
    (hfresh : ∀ j, lookupVM st.vmPool (f j) = none)
    (hl : st.launching = false)
    (hlen : st.vmPool.length < cfg.MIN_BACKUP_VMS)
    (hminmax : cfg.MIN_BACKUP_VMS ≤ cfg.MAX_BACKUP_VMS) :
    (topUpPhase cfg now outs st).vmPool.length = cfg.MIN_BACKUP_VMS := by
  unfold topUpPhase
  rw [if_pos hlen]
  rw [topUpGo_spec cfg now f g outs houts hinj
    (cfg.MIN_BACKUP_VMS - st.vmPool.length) 0 st hl (by omega)
    (fun j _ => hfresh j)]
  omega

/-- Witness for C3 (amended): two successful launches with distinct ids close
a deficit of two in one tick. -/
theorem C3_amended_topup_witness :
    (topUpPhase { cfgD with MIN_BACKUP_VMS := 2 } 0
      (fun i => LaunchOutcome.launched (String.mk (List.replicate (i + 1) 'a'))
        (some "ip"))
      { vmPool := [], matchMap := [], protectedVM := none,
        launching := false }).vmPool.length = 2 :=
  C3_amended_topup { cfgD with MIN_BACKUP_VMS := 2 } 0
    (fun i => String.mk (List.replicate (i + 1) 'a')) (fun _ => "ip")
    (fun i => LaunchOutcome.launched (String.mk (List.replicate (i + 1) 'a'))
      (some "ip"))
    { vmPool := [], matchMap := [], protectedVM := none, launching := false }
    (fun _ => rfl)
    (fun j j' h => by
      have h2 := congrArg (fun s => s.data.length) h
      simpa using h2)
    (fun _ => rfl)
    rfl
    (by decide)
    (by decide)

/-! ## Claim C5 — immutability of match records -/

theorem lookupMatch_setMatch_ne (m : List (String × MatchRec)) (k k' : String)
    (v : MatchRec) (h : k' ≠ k) :
    lookupMatch (setMatch m k v) k' = lookupMatch m k' := by
  induction m with
  | nil => simp [setMatch, lookupMatch, Ne.symm h]
  | cons e m ih =>
    by_cases he : e.1 = k
    · simp [setMatch, lookupMatch, he, Ne.symm h]
    · by_cases he' : e.1 = k'
      · simp [setMatch, lookupMatch, he, he', h]
      · simp [setMatch, lookupMatch, he, he', ih]

theorem syncRemovalStep_matchMap (insts : List CloudInst) (st : St) (iid : String) :
    (syncRemovalStep insts st iid).matchMap = st.matchMap := by
  unfold syncRemovalStep
  dsimp only
  repeat' split
  all_goals rfl

theorem syncAddStep_matchMap (now : ℚ) (st : St) (inst : CloudInst) :
    (syncAddStep now st inst).matchMap = st.matchMap := by
  unfold syncAddStep
  dsimp only
  repeat' split
  all_goals rfl

theorem syncProtectedFixup_matchMap (st : St) :
    (syncProtectedFixup st).matchMap = st.matchMap := by
  unfold syncProtectedFixup
  repeat' split
  all_goals rfl

theorem syncWithCloud_matchMap (now : ℚ) (cloud : Option (List CloudInst))
    (st : St) : (syncWithCloud now cloud st).matchMap = st.matchMap := by
  unfold syncWithCloud
  cases cloud with
  | none => rfl
  | some insts =>
    dsimp only
    rw [syncProtectedFixup_matchMap]
    have h1 : ((keysOf st.vmPool).foldl (syncRemovalStep insts) st).matchMap
        = st.matchMap :=
      foldl_preserve (P := fun s => s.matchMap = st.matchMap) _ st
        (fun s k _ hs => (syncRemovalStep_matchMap insts s k).trans hs) rfl
    exact foldl_preserve (P := fun s => s.matchMap = st.matchMap) insts _
      (fun s i _ hs => (syncAddStep_matchMap now s i).trans hs) h1

theorem idleCheck_matchMap (cfg : Config) (now : ℚ) (iid : String) (st : St) :
    (idleCheck cfg now iid st).matchMap = st.matchMap := by
  unfold idleCheck
  dsimp only
  repeat' split
  all_goals rfl

theorem healthStep_matchMap (cfg : Config) (now : ℚ)
    (probes : String → ProbeResult) (acc : St × ℚ) (iid : String) :
    (healthStep cfg now probes acc iid).1.matchMap = acc.1.matchMap := by
  unfold healthStep
  dsimp only
  split
  case h_1 st1 heq =>
    rw [idleCheck_matchMap]
    have := refreshVmStatus_matchMap cfg now iid (probes iid) acc.1
    rw [heq] at this
    exact this
  case h_2 st1 heq =>
    have := refreshVmStatus_matchMap cfg now iid (probes iid) acc.1
    rw [heq] at this
    exact this

theorem healthPhase_matchMap (cfg : Config) (now : ℚ)
    (probes : String → ProbeResult) (st : St) :
    (healthPhase cfg now probes st).1.matchMap = st.matchMap := by
  unfold healthPhase
  exact foldl_preserve (P := fun a => a.1.matchMap = st.matchMap) _ (st, 0)
    (fun a k _ ha => (healthStep_matchMap cfg now probes a k).trans ha) rfl

theorem topUpGo_matchMap (cfg : Config) (now : ℚ) (outs : ℕ → LaunchOutcome) :
    ∀ (d i : ℕ) (st : St), (topUpGo cfg now outs d i st).matchMap = st.matchMap := by
  intro d
  induction d with
  | zero => intro i st; rfl
  | succ d ih =>
    intro i st
    show (topUpGo cfg now outs d (i + 1)
      (launchBackupVM cfg now (outs i) st).2).matchMap = st.matchMap
    rw [ih, launchBackupVM_matchMap]

theorem topUpPhase_matchMap (cfg : Config) (now : ℚ) (outs : ℕ → LaunchOutcome)
    (st : St) : (topUpPhase cfg now outs st).matchMap = st.matchMap := by
  unfold topUpPhase
  split
  · exact topUpGo_matchMap cfg now outs _ 0 st
  · rfl

theorem scaleUpPhase_matchMap (cfg : Config) (now : ℚ) (out : LaunchOutcome)
    (tf : ℚ) (st : St) : (scaleUpPhase cfg now out tf st).matchMap = st.matchMap := by
  unfold scaleUpPhase
  split
  · exact launchBackupVM_matchMap cfg now out st
  · rfl

theorem updateVMs_matchMap (cfg : Config) (now : ℚ)
    (cloud : Option (List CloudInst)) (probes : String → ProbeResult)
    (topOuts : ℕ → LaunchOutcome) (scaleOut : LaunchOutcome) (st : St) :
    (updateVMs cfg now cloud probes topOuts scaleOut st).matchMap = st.matchMap := by
  unfold updateVMs
  rw [recomputeProtectedVM_matchMap, scaleUpPhase_matchMap, topUpPhase_matchMap,
    healthPhase_matchMap, syncWithCloud_matchMap]

/-- C5 counterexample: the claim says a created match record is never mutated,
so repeated `GET /api/match-details/m1` always returns the same body.  A
second successful `start-match` request reusing `matchId = "m1"` (sixty
seconds later) overwrites the record — `startedAt` changes — so two GETs
straddling it return different bodies. -/
theorem C5_counterexample :
    lookupMatch (handleMatchRequest cfgD 0 (fun _ => ProbeResult.ok (some 0))
        LaunchOutcome.runFail (StartOutcome.ok 7001 "c1") reqM stA).2.matchMap "m1" ≠
      lookupMatch (handleMatchRequest cfgD 60000 (fun _ => ProbeResult.ok (some 0))
        LaunchOutcome.runFail (StartOutcome.ok 7001 "c1") reqM
        (handleMatchRequest cfgD 0 (fun _ => ProbeResult.ok (some 0))
          LaunchOutcome.runFail (StartOutcome.ok 7001 "c1") reqM stA).2).2.matchMap "m1" ∧
    (lookupMatch (handleMatchRequest cfgD 0 (fun _ => ProbeResult.ok (some 0))
        LaunchOutcome.runFail (StartOutcome.ok 7001 "c1") reqM stA).2.matchMap
        "m1").isSome = true := by
  decide

/-- C5 (amended): a match record is mutated only by a later successful
start-match reusing the same matchId; a request for a *different* matchId
leaves the stored record untouched, a worker start failure leaves the match
map entirely unchanged, the reconciler never touches the match map, and the
details endpoint is a pure read — so for a matchId not reused by another
successful request, repeated GETs return the same body. -/
theorem C5_amended_immutability (cfg : Config) (now : ℚ)
    (probes : String → ProbeResult) (lout : LaunchOutcome) (sout : StartOutcome)
    (req : Req) (m : String) (st : St) (cloud : Option (List CloudInst))
    (topOuts : ℕ → LaunchOutcome) (scaleOut : LaunchOutcome) :
    (req.matchId ≠ some m →
      lookupMatch (handleMatchRequest cfg now probes lout sout req st).2.matchMap m =
        lookupMatch st.matchMap m) ∧
    (sout = .fail →
      (handleMatchRequest cfg now probes lout sout req st).2.matchMap = st.matchMap) ∧
    (updateVMs cfg now cloud probes topOuts scaleOut st).matchMap = st.matchMap := by
  refine ⟨?_, ?_, updateVMs_matchMap cfg now cloud probes topOuts scaleOut st⟩
  · intro hm
    unfold handleMatchRequest
    cases hv : validReq req with
    | none => rfl
    | some p =>
      rcases p with ⟨mid, gm⟩
      have hmid : req.matchId = some mid := by
        unfold validReq at hv
        rcases hq : req.matchId with _ | mid'
        · rw [hq] at hv
          cases hv
        · rw [hq] at hv
          rcases hg : req.gameMode with _ | gm'
          · rw [hg] at hv
            cases hv
          · rw [hg] at hv
            dsimp only at hv
            split at hv
            · injection hv with hv'
              exact congrArg (fun x => some x.1) hv'
            · cases hv
      have hmm : mid ≠ m := fun h => hm (h ▸ hmid)
      dsimp only
      rcases hg2 : getAvailableVM cfg now probes lout st with ⟨r, st1⟩
      have hst1 : st1.matchMap = st.matchMap := by
        have := getAvailableVM_matchMap cfg now probes lout st
        rw [hg2] at this
        exact this
      rcases r with _ | ⟨iid, ip⟩
      · exact congrArg (fun mm => lookupMatch mm m) hst1
      · cases sout with
        | fail => exact congrArg (fun mm => lookupMatch mm m) hst1
        | ok port cid =>
          dsimp only
          split
          · rw [lookupMatch_setMatch_ne _ _ _ _ (Ne.symm hmm), hst1]
          · rw [lookupMatch_setMatch_ne _ _ _ _ (Ne.symm hmm), hst1]
  · intro hs
    subst hs
    unfold handleMatchRequest
    cases hv : validReq req with
    | none => rfl
    | some p =>
      rcases p with ⟨mid, gm⟩
      dsimp only
      rcases hg2 : getAvailableVM cfg now probes lout st with ⟨r, st1⟩
      have hst1 : st1.matchMap = st.matchMap := by
        have := getAvailableVM_matchMap cfg now probes lout st
        rw [hg2] at this
        exact this
      rcases r with _ | ⟨iid, ip⟩
      · exact hst1
      · exact hst1

/-- Witness for C5 (amended): a successful request for "m1" leaves the
(empty) stored record for "m2" unchanged. -/
theorem C5_amended_immutability_witness :
    lookupMatch (handleMatchRequest cfgD 0 (fun _ => ProbeResult.ok (some 0))
        LaunchOutcome.runFail (StartOutcome.ok 7001 "c1") reqM stA).2.matchMap "m2" =
      lookupMatch stA.matchMap "m2" :=
  (C5_amended_immutability cfgD 0 (fun _ => ProbeResult.ok (some 0))
    LaunchOutcome.runFail (StartOutcome.ok 7001 "c1") reqM "m2" stA none
    (fun _ => LaunchOutcome.runFail) LaunchOutcome.runFail).1 (by decide)

/-! ## Claim C6 — optimistic increment iff worker start success -/

theorem launchBackupVM_some_lookup (cfg : Config) (now : ℚ) (out : LaunchOutcome)
    (st : St) (iid ip : String)
    (h : (launchBackupVM cfg now out st).1 = some (iid, ip)) :
    lookupVM (launchBackupVM cfg now out st).2.vmPool iid = some ⟨ip, 0, 0, now, now⟩ := by
  unfold launchBackupVM at h ⊢
  by_cases hl : st.launching
  · rw [hl] at h
    cases h
  · rw [if_neg hl] at h ⊢
    dsimp only at h ⊢
    by_cases hm : cfg.MAX_BACKUP_VMS ≤ st.vmPool.length
    · rw [if_pos hm] at h
      cases h
    · rw [if_neg hm] at h ⊢
      cases out with
      | runFail => cases h
      | launched jid ipo =>
        cases ipo with
        | none =>
          dsimp only at h
          by_cases hp : st.protectedVM = none <;> simp [hp] at h
        | some jip =>
          dsimp only at h ⊢
          injection h with h'
          injection h' with h1 h2
          subst h1
          subst h2
          by_cases hp : st.protectedVM = none <;>
            simp [hp, lookupVM_setVM_self]

theorem getAvailableVM_some_lookup (cfg : Config) (now : ℚ)
    (probes : String → ProbeResult) (out : LaunchOutcome) (st : St) (iid ip : String)
    (h : (getAvailableVM cfg now probes out st).1 = some (iid, ip)) :
    lookupVM (getAvailableVM cfg now probes out st).2.vmPool iid ≠ none := by
  unfold getAvailableVM at h ⊢
  dsimp only at h ⊢
  cases hs : (List.insertionSort candLE
      (candidatesOf cfg (probeAll cfg now probes st))).head? with
  | some e =>
    rw [hs] at h
    dsimp only at h ⊢
    injection h with h'
    injection h' with h1 h2
    subst h1
    have hmem := (head_insertionSort_min _ e hs).1
    have hpool : e ∈ (probeAll cfg now probes st).vmPool :=
      (List.mem_filter.mp hmem).1
    exact lookup_ne_none_of_mem _ e hpool
  | none =>
    rw [hs] at h
    dsimp only at h ⊢
    rw [launchBackupVM_some_lookup cfg now out _ iid ip h]
    exact Option.some_ne_none _

/-- C6: on a valid request for which the allocator returned a VM, the chosen
VM's `matchCount` is incremented if and only if the worker `start-match`
succeeded: on failure the handler answers 500 and the state is exactly the
post-allocation state (no increment, no match stored); on success the handler
answers with the match descriptor and the chosen VM's stored `matchCount` is
exactly one more than after allocation. -/
theorem C6_increment_iff_success (cfg : Config) (now : ℚ)
    (probes : String → ProbeResult) (lout : LaunchOutcome) (sout : StartOutcome)
    (req : Req) (st : St) (mid gm iid ip : String)
    (hv : validReq req = some (mid, gm))
    (ha : (getAvailableVM cfg now probes lout st).1 = some (iid, ip)) :
    (sout = .fail →
      handleMatchRequest cfg now probes lout sout req st =
        (.e500, (getAvailableVM cfg now probes lout st).2)) ∧
    (∀ port cid, sout = .ok port cid →
      (handleMatchRequest cfg now probes lout sout req st).1 =
        .ok { serverIP := ip, serverPort := port, matchId := mid, gameMode := gm,
              tickRate := req.tickRate.getD 30, containerId := cid,
              startedAt := now, vmInstanceId := iid } ∧
      ((lookupVM (handleMatchRequest cfg now probes lout sout req st).2.vmPool iid).map
          VM.matchCount) =
        ((lookupVM (getAvailableVM cfg now probes lout st).2.vmPool iid).map
          VM.matchCount).map (fun q => q + 1)) := by
  have hlk := getAvailableVM_some_lookup cfg now probes lout st iid ip ha
  rcases hg : getAvailableVM cfg now probes lout st with ⟨r, st1⟩
  rw [hg] at ha hlk
  dsimp only at ha hlk
  subst ha
  rcases hvm : lookupVM st1.vmPool iid with _ | vm
  · exact absurd hvm hlk
  constructor
  · intro hs
    subst hs
    unfold handleMatchRequest
    rw [hv, hg]
  · intro port cid hs
    subst hs
    unfold handleMatchRequest
    rw [hv, hg]
    dsimp only
    rw [hvm]
    constructor
    · rfl
    · dsimp only
      rw [lookupVM_setVM_self]
      rfl

/-- Witness for C6: on the one-VM pool with a healthy worker, a successful
start of match "m1" leaves VM "A" with `matchCount = 1`. -/
theorem C6_increment_iff_success_witness :
    ((lookupVM (handleMatchRequest cfgD 0 (fun _ => ProbeResult.ok (some 0))
        LaunchOutcome.runFail (StartOutcome.ok 7001 "c1") reqM stA).2.vmPool "A").map
      VM.matchCount) = some 1 :=
  (((C6_increment_iff_success cfgD 0 (fun _ => ProbeResult.ok (some 0))
      LaunchOutcome.runFail (StartOutcome.ok 7001 "c1") reqM stA
      "m1" "VersusMen_Online" "A" "1.2.3.4" (by decide) (by decide)).2
    7001 "c1" rfl).2).trans (by decide)

/-! ## Claim C10 — the request path mutates and can terminate VMs -/

theorem launchBackupVM_preserve_none (cfg : Config) (now : ℚ)
    (out : LaunchOutcome) (st : St) (iid : String)
    (h : lookupVM st.vmPool iid = none)
    (hout : ∀ ipo, out ≠ LaunchOutcome.launched iid ipo) :
    lookupVM (launchBackupVM cfg now out st).2.vmPool iid = none := by
  unfold launchBackupVM
  by_cases hl : st.launching
  · simp [hl, h]
  · rw [if_neg hl]
    dsimp only
    by_cases hm : cfg.MAX_BACKUP_VMS ≤ st.vmPool.length
    · rw [if_pos hm]
      exact h
    · rw [if_neg hm]
      cases out with
      | runFail => exact h
      | launched jid ipo =>
        have hj : jid ≠ iid := fun he => hout ipo (by rw [he])
        cases ipo with
        | none =>
          dsimp only
          by_cases hp : st.protectedVM = none <;>
            simp [hp, lookupVM_delVM_ne _ _ _ (Ne.symm hj), h]
        | some jip =>
          dsimp only
          by_cases hp : st.protectedVM = none <;>
            simp [hp, lookupVM_setVM_ne _ _ _ _ (Ne.symm hj), h]

/-- C10 (implicit claim): `getAvailableVM`, on the match-request path, does
not merely read the pool.  For a tracked VM at the head of the registry:
a successful probe rewrites its record in place (`matchCount`,
`unreachableCount`, `lastSeen`); and a failed probe that reaches
`VM_UNREACHABLE_TERMINATE_THRESHOLD` on an old-enough, non-protected VM while
the pool is above `MIN_BACKUP_VMS` terminates the VM and removes it from the
pool — inside the request path itself, before any reconciler tick. -/
theorem C10_request_path_effects (cfg : Config) (now : ℚ)
    (probes : String → ProbeResult) (out : LaunchOutcome)
    (iid : String) (vm : VM) (rest : Pool) (mm : List (String × MatchRec))
    (pv : Option String) (hrest : iid ∉ keysOf rest) :
    (∀ am, probes iid = .ok am →
      lookupVM (probeAll cfg now probes
        { vmPool := (iid, vm) :: rest, matchMap := mm, protectedVM := pv,
          launching := false }).vmPool iid = some (refreshOkVM now vm am)) ∧
    (probes iid = .fail →
      cfg.VM_UNREACHABLE_TERMINATE_THRESHOLD ≤ vm.unreachableCount + 1 →
      cfg.VM_AGE_TERMINATE_MINUTES * (60 * 1000) ≤ now - vm.launchedAt →
      some iid ≠ pv →
      cfg.MIN_BACKUP_VMS < rest.length + 1 →
      (∀ ipo, out ≠ LaunchOutcome.launched iid ipo) →
      lookupVM (probeAll cfg now probes
        { vmPool := (iid, vm) :: rest, matchMap := mm, protectedVM := pv,
          launching := false }).vmPool iid = none ∧
      lookupVM (getAvailableVM cfg now probes out
        { vmPool := (iid, vm) :: rest, matchMap := mm, protectedVM := pv,
          launching := false }).2.vmPool iid = none) := by
  set st : St :=
    { vmPool := (iid, vm) :: rest, matchMap := mm, protectedVM := pv,
      launching := false } with hstdef
  have hlook : lookupVM st.vmPool iid = some vm := by
    simp [hstdef, lookupVM]
  have hkeys : keysOf st.vmPool = iid :: keysOf rest := by
    simp [hstdef, keysOf]
  constructor
  · intro am hpr
    have h0 : lookupVM (refreshVmStatus cfg now iid (probes iid) st).2.vmPool iid
        = some (refreshOkVM now vm am) := by
      unfold refreshVmStatus
      rw [hpr, hlook]
      dsimp only
      exact lookupVM_setVM_self _ _ _
    unfold probeAll
    rw [hkeys]
    rw [List.foldl_cons]
    exact foldl_preserve
      (P := fun (s : St) => lookupVM s.vmPool iid = some (refreshOkVM now vm am))
      (keysOf rest) _
      (fun s k hk hs => by
        have hki : iid ≠ k := fun he => hrest (he ▸ hk)
        show lookupVM (refreshVmStatus cfg now k (probes k) s).2.vmPool iid
          = some (refreshOkVM now vm am)
        rw [refreshVmStatus_lookup_other cfg now k (probes k) s iid hki]
        exact hs)
      h0
  · intro hpr h2 h3 h4 h5 hout
    have h0 : lookupVM (refreshVmStatus cfg now iid (probes iid) st).2.vmPool iid
        = none := by
      unfold refreshVmStatus
      rw [hpr, hlook]
      dsimp only
      rw [if_pos, if_pos]
      · exact lookupVM_delVM_self _ _
      · refine ⟨h4, ?_⟩
        rw [length_setVM_of_mem _ _ _ (by rw [hlook]; exact Option.some_ne_none vm)]
        simpa [hstdef] using h5
      · exact ⟨h2, h3⟩
    have hfold : lookupVM (probeAll cfg now probes st).vmPool iid = none := by
      unfold probeAll
      rw [hkeys, List.foldl_cons]
      exact foldl_preserve (P := fun (s : St) => lookupVM s.vmPool iid = none)
        (keysOf rest) _
        (fun s k _ hs => refreshVmStatus_preserve_none cfg now k (probes k) s iid hs)
        h0
    refine ⟨hfold, ?_⟩
    unfold getAvailableVM
    dsimp only
    cases hs : (List.insertionSort candLE
        (candidatesOf cfg (probeAll cfg now probes st))).head? with
    | some e => exact hfold
    | none => exact launchBackupVM_preserve_none cfg now out _ iid hfold hout

/-- Witness for C10: on the two-VM pool `stAB` at `now = 300000` with all
probes failing, the request path itself removes "A" from the pool — both
after the probe fan-out and in the final state of `getAvailableVM`. -/
theorem C10_request_path_effects_witness :
    lookupVM (probeAll cfgD 300000 (fun _ => ProbeResult.fail) stAB).vmPool "A"
      = none ∧
    lookupVM (getAvailableVM cfgD 300000 (fun _ => ProbeResult.fail)
      LaunchOutcome.runFail stAB).2.vmPool "A" = none :=
  (C10_request_path_effects cfgD 300000 (fun _ => ProbeResult.fail)
    LaunchOutcome.runFail "A" ⟨"1.2.3.4", 0, 1, 0, 0⟩
    [("B", ⟨"5.6.7.8", 3, 0, 0, 0⟩)] [] (some "B") (by decide)).2
    rfl (by decide) (by decide) (by decide) (by decide)
    (fun ipo h => LaunchOutcome.noConfusion h)

end Alloc
